import Mathlib

/-!
Shallow embedding of the `vssetup` repository (a Visual Studio setup-discovery
library plus its `install-msvc` driver) for checking its natural-language
specification.

Rust strings are modeled as their sequence of Unicode code points (`List Nat`);
Rust compares strings by UTF-8 bytes, and UTF-8 byte order coincides with code
point order, so equality and lexicographic comparison agree with the source.
Machine integers are `Nat` with explicit bounds where overflow matters.
Fallible operations return `Option` or `Except`.
-/

namespace VsSetup

/-- Rust `String` / `&str`, as its sequence of Unicode code points. -/
abbrev RStr := List Nat

/-- Embed a Lean string literal as an `RStr` (code points of its characters). -/
def rstr (s : String) : RStr := s.data.map Char.toNat

/-! ## Modeled Rust standard-library string operations -/

/-- Rust `str::split(sep)` collected to a list: splits on every occurrence of
the separator, keeping empty segments (`"".split('.')` yields `[""]`). -/
def splitSep (sep : Nat) : RStr → List RStr
  | [] => [[]]
  | c :: cs =>
    if c = sep then [] :: splitSep sep cs
    else
      match splitSep sep cs with
      | [] => [[c]]
      | p :: ps => (c :: p) :: ps

/-- Rust `str::split_once(sep)`: the parts strictly before and after the first
occurrence of the separator, or `none` when the separator does not occur. -/
def splitOnce (sep : Nat) : RStr → Option (RStr × RStr)
  | [] => none
  | c :: cs =>
    if c = sep then some ([], cs)
    else (splitOnce sep cs).map (fun p => (c :: p.1, p.2))

/-- ASCII decimal digit test, as Rust's unsigned-integer parser accepts. -/
def isAsciiDigit (c : Nat) : Bool := 48 ≤ c && c ≤ 57

/-- Rust `str::parse::<uN>()` for an unsigned integer type whose values are
`< bound`: an optional leading `+`, then one or more ASCII digits, and the
value must fit the type; anything else is a parse error (`none`). -/
def parseRustUInt (bound : Nat) (s : RStr) : Option Nat :=
  let digits := match s with
    | c :: rest => if c = 43 then rest else s
    | [] => s
  if digits.isEmpty then none
  else if digits.all isAsciiDigit then
    let v := digits.foldl (fun acc c => acc * 10 + (c - 48)) 0
    if v < bound then some v else none
  else none

/-- Rust byte-lexicographic strict order on strings (`str: Ord`), on code
points (UTF-8 byte order and code point order coincide). -/
def lexLt : RStr → RStr → Bool
  | _, [] => false
  | [], _ :: _ => true
  | a :: as, b :: bs => if a < b then true else if b < a then false else lexLt as bs

/-- The number of values of `u16` (parse bound for `u16` fields). -/
def U16_SIZE : Nat := 2 ^ 16

/-- The number of values of `u32` (parse bound for `u32` fields). -/
def U32_SIZE : Nat := 2 ^ 32

/-! ## `crates/install-msvc/src/main.rs`: products, components, classification -/

def PRODUCT_COMMUNITY : RStr := rstr "Microsoft.VisualStudio.Product.Community"

def PRODUCT_BUILD_TOOLS : RStr := rstr "Microsoft.VisualStudio.Product.BuildTools"

def PRODUCT_PROFESSIONAL : RStr := rstr "Microsoft.VisualStudio.Product.Professional"

def PRODUCT_ENTERPRISE : RStr := rstr "Microsoft.VisualStudio.Product.Enterprise"

/-- `enum Product { BuildTools = 1, Enterprise = 2, Professional = 3, Community = 4 }`. -/
inductive Product where
  | BuildTools
  | Enterprise
  | Professional
  | Community
deriving DecidableEq

/-- The Rust enum's explicit discriminant; the derived `Ord` compares by it. -/
def Product.discrim : Product → Nat
  | .BuildTools => 1
  | .Enterprise => 2
  | .Professional => 3
  | .Community => 4

/-- `Product::from_str`: maps the four fixed identifier strings, `None` else. -/
def Product.from_str (product : RStr) : Option Product :=
  if product = PRODUCT_COMMUNITY then some .Community
  else if product = PRODUCT_PROFESSIONAL then some .Professional
  else if product = PRODUCT_ENTERPRISE then some .Enterprise
  else if product = PRODUCT_BUILD_TOOLS then some .BuildTools
  else none

/-- `Product::as_str`. -/
def Product.as_str : Product → RStr
  | .BuildTools => PRODUCT_BUILD_TOOLS
  | .Community => PRODUCT_COMMUNITY
  | .Professional => PRODUCT_PROFESSIONAL
  | .Enterprise => PRODUCT_ENTERPRISE

/-- Rust three-way comparison on `Nat` (`u16::cmp`, discriminant `cmp`, ...). -/
def natCmp (a b : Nat) : Ordering :=
  if a < b then .lt else if b < a then .gt else .eq

/-- The derived `Ord` of `Product`. -/
def Product.cmp (a b : Product) : Ordering := natCmp a.discrim b.discrim

/-- `struct Sdk { version: u32, id: String }`. -/
structure Sdk where
  version : Nat
  id : RStr
deriving DecidableEq

/-- `Sdk::from_id`: recognise `Microsoft.VisualStudio.Component.Windows[10|11]SDK.<u32>`. -/
def Sdk.from_id (id : RStr) : Option Sdk :=
  match splitSep 46 id with
  | [a, b, c, d, e] =>
    if a = rstr "Microsoft" ∧ b = rstr "VisualStudio" ∧ c = rstr "Component"
        ∧ (d = rstr "Windows10SDK" ∨ d = rstr "Windows11SDK") then
      match parseRustUInt U32_SIZE e with
      | some version => some ⟨version, id⟩
      | none => none
    else none
  | _ => none

/-- The platform-SDK match rule as the specification words it: the identifier
splits on `.` into exactly 5 segments, the first three equal `Microsoft`,
`VisualStudio`, `Component`, the fourth is one of the two SDK family tokens,
and the fifth parses as a `u32` version. Stated independently of
`Sdk.from_id` to compare the spec's wording with the source. -/
def specSdkMatch (id : RStr) : Prop :=
  (splitSep 46 id).length = 5 ∧
  (splitSep 46 id).take 3 = [rstr "Microsoft", rstr "VisualStudio", rstr "Component"] ∧
  ((splitSep 46 id).getD 3 [] = rstr "Windows10SDK" ∨
    (splitSep 46 id).getD 3 [] = rstr "Windows11SDK") ∧
  (parseRustUInt U32_SIZE ((splitSep 46 id).getD 4 [])).isSome = true

/-- The derived `Ord` of `Sdk` as a strict order: lexicographic on
`(version, id)`, the `id` compared byte-lexicographically. -/
def Sdk.rustLt (a b : Sdk) : Bool :=
  a.version < b.version || (a.version == b.version && lexLt a.id b.id)

/-- The loop's `component > sdk` test for `component = Some c` against the
current `Option<Sdk>` accumulator (`None` is below every `Some`). -/
def sdkGtOpt (c : Sdk) : Option Sdk → Bool
  | none => true
  | some s => Sdk.rustLt s c

def MSVC_X86_X64 : RStr := rstr "Microsoft.VisualStudio.Component.VC.Tools.x86.x64"

def MSVC_ARM64 : RStr := rstr "Microsoft.VisualStudio.Component.VC.Tools.ARM64"

/-- `enum Msvc { X86X64, Arm64 }`. -/
inductive Msvc where
  | X86X64
  | Arm64
deriving DecidableEq

/-- `Msvc::from_id`: exactly two fixed component identifier constants. -/
def Msvc.from_id (id : RStr) : Option Msvc :=
  if id = MSVC_X86_X64 then some .X86X64
  else if id = MSVC_ARM64 then some .Arm64
  else none

/-- `Msvc::from_rust_arch`. -/
def Msvc.from_rust_arch (arch : RStr) : Msvc :=
  if arch = rstr "aarch64" then .Arm64 else .X86X64

/-- `Msvc::id`. -/
def Msvc.id : Msvc → RStr
  | .X86X64 => MSVC_X86_X64
  | .Arm64 => MSVC_ARM64

/-- The `else if let Some(component) = Msvc::from_id(..)` arm of the package
loop in `instances`: record the toolset only when it matches the running
process's architecture. -/
def msvcStep (arch : RStr) (msvc : Option Msvc) (id : RStr) : Option Msvc :=
  match Msvc.from_id id with
  | some c => if c = Msvc.from_rust_arch arch then some c else msvc
  | none => msvc

/-- One iteration of the package loop in `instances` (fails on `GetId` are
skipped, so a package is an `Option RStr`). -/
def classifyStep (arch : RStr) (st : Option Msvc × Option Sdk) (pkg : Option RStr) :
    Option Msvc × Option Sdk :=
  match pkg with
  | none => st
  | some id =>
    match Sdk.from_id id with
    | some c =>
      if sdkGtOpt c st.2 then (st.1, some c)
      else (msvcStep arch st.1 id, st.2)
    | none => (msvcStep arch st.1 id, st.2)

/-- The whole package loop of `instances`: fold the classification over the
instance's component identifier list. -/
def classifyPackages (arch : RStr) (pkgs : List (Option RStr)) : Option Msvc × Option Sdk :=
  pkgs.foldl (classifyStep arch) (none, none)

/-- One step of Rust `Iterator::max` on `Sdk` values (derived `Ord`): keep the
incoming element when it is not below the accumulator, so the last of several
equal maxima wins. -/
def maxStep (acc : Option Sdk) (x : Sdk) : Option Sdk :=
  match acc with
  | none => some x
  | some m => if Sdk.rustLt x m then some m else some x

/-- Rust `Iterator::max` on `Sdk` values. -/
def rustMax (l : List Sdk) : Option Sdk :=
  l.foldl maxStep none

/-- The SDK selection in `avaliable_components`:
`components.into_iter().filter_map(Sdk::from_id).max()`. -/
def exportSdk (components : List RStr) : Option Sdk :=
  rustMax (components.filterMap Sdk.from_id)

/-! ## `src/defs.rs`: the tagged union `VARIANT` and its decoded form -/

def VT_BSTR : Nat := 8

def VT_BOOL : Nat := 11

def VT_I1 : Nat := 16

def VT_I2 : Nat := 2

def VT_I4 : Nat := 3

def VT_I8 : Nat := 20

def VT_UI1 : Nat := 17

def VT_UI2 : Nat := 18

def VT_UI4 : Nat := 19

def VT_UI8 : Nat := 21

/-- `enum Variant`: one interpreted foreign tagged-union result. -/
inductive Variant where
  | Bstr (s : RStr)
  | Bool (b : Bool)
  | Signed (i : Int)
  | Unsigned (u : Nat)
  | Unknown
deriving DecidableEq

/-- The `VARIANT_DATA` union overlay: the 64 payload bits (`llVal`), whose low
16 bits are `boolVal` on the little-endian targets this crate builds for, and
the owned string payload read when the tag says `VT_BSTR`. -/
structure VARIANT_DATA where
  llVal : Nat
  bstrVal : RStr

/-- `struct VARIANT { vt: VARTYPE, .., data: VARIANT_DATA }`. -/
structure VARIANT where
  vt : Nat
  data : VARIANT_DATA

/-- `llVal as i64`: reinterpret the low 64 bits as a signed value. -/
def toI64 (n : Nat) : Int :=
  if n % 2 ^ 64 < 2 ^ 63 then ((n % 2 ^ 64 : Nat) : Int)
  else ((n % 2 ^ 64 : Nat) : Int) - 2 ^ 64

/-- `VARIANT::into_variant(mut self)`. The source panics on an unsupported tag
when `cfg!(debug_assertions)` holds and yields `Variant::Unknown` otherwise;
the panic is modeled as the `Except.error` branch, selected by the
`debugAssertions` build flag. -/
def into_variant (debugAssertions : Bool) (v : VARIANT) : Except String Variant :=
  if v.vt = VT_BSTR then .ok (.Bstr v.data.bstrVal)
  else if v.vt = VT_BOOL then .ok (.Bool (v.data.llVal % 2 ^ 16 != 0))
  else if v.vt = VT_I1 ∨ v.vt = VT_I2 ∨ v.vt = VT_I4 ∨ v.vt = VT_I8 then
    .ok (.Signed (toI64 v.data.llVal))
  else if v.vt = VT_UI1 ∨ v.vt = VT_UI2 ∨ v.vt = VT_UI4 ∨ v.vt = VT_UI8 then
    .ok (.Unsigned v.data.llVal)
  else if debugAssertions then .error "unhandled variant type"
  else .ok .Unknown

/-- The supported tag set of `into_variant`. -/
def supportedTags : List Nat :=
  [VT_BSTR, VT_BOOL, VT_I1, VT_I2, VT_I4, VT_I8, VT_UI1, VT_UI2, VT_UI4, VT_UI8]

/-! ## `src/lib.rs`: HRESULTs, wide strings, enumeration -/

/-- `HRESULT` is an `i32`; negative values are errors (`HRESULT::is_ok` is
`self.0 >= 0`). -/
def S_OK : Int := 0

def S_FALSE : Int := 1

def E_POINTER : Int := -2147467261

def E_INVALIDARG : Int := -2147024809

def E_UNEXPECTED : Int := -2147418113

/-- `HRESULT::is_err`. -/
def hresultIsErr (hr : Int) : Bool := hr < 0

namespace WideStr

/-- Rust `iter().position(p)` over a `u16` slice: index of the first zero. -/
def positionZero : List Nat → Option Nat
  | [] => none
  | a :: t => if a = 0 then some 0 else (positionZero t).map (· + 1)

/-- `WideStr::from_slice_with_nul`: the first zero element must sit at the last
index, else `E_INVALIDARG`. The resulting view's observable content
(`to_slice`) is the prefix before the first zero. -/
def from_slice_with_nul (u16s : List Nat) : Except Int (List Nat) :=
  if positionZero u16s = some (u16s.length - 1) then .ok (u16s.takeWhile (fun n => n != 0))
  else .error E_INVALIDARG

/-- `WideStr::from_ptr`: a raw pointer is `none` (null) or points at a
null-terminated buffer; null yields no view, anything else yields the view of
the buffer up to its first zero. -/
def from_ptr (ptr : Option (List Nat)) : Option (List Nat) :=
  match ptr with
  | some buf => some (buf.takeWhile (fun n => n != 0))
  | none => none

end WideStr

namespace EnumSetupInstances

/-- `EnumSetupInstances::Next`, the bulk pull: the foreign cursor's reply is its
status `hr` and the fetched count; the caller's buffer has `bufLen` slots, of
which at most `u32::MAX` are requested (`try_into().unwrap_or(u32::MAX)`). An
`ok (some k)` models `Ok(Some(slice))` with `slice.len() = k`. -/
def Next (bufLen : Nat) (hr : Int) (fetched : Nat) : Except Int (Option Nat) :=
  if hr = S_FALSE then .ok none
  else if hresultIsErr hr then .error hr
  else if fetched ≤ min bufLen (2 ^ 32 - 1) then .ok (some fetched)
  else .error E_UNEXPECTED

/-- `impl Iterator for EnumSetupInstances`, `fn next`: a single-item pull that
yields the raw out-parameter only on `S_OK` and `None` on every other status. -/
def next {α : Type} (hr : Int) (inst : Option α) : Option α :=
  if hr = S_OK then inst else none

end EnumSetupInstances

/-! ## `crates/install-msvc/src/main.rs`: discovery, selection, export -/

/-- `struct VisualStudio` (the candidate `Instance`). -/
structure VisualStudio where
  display_name : RStr
  version : Nat
  product_id : Product
  install_path : RStr
  setup_path : RStr
  msvc : Option Msvc
  sdk : Option Sdk
deriving DecidableEq

/-- `VisualStudio::clear_components`. -/
def VisualStudio.clear_components (vs : VisualStudio) : VisualStudio :=
  { vs with msvc := none, sdk := none }

/-- `VisualStudio::components`: msvc id, then sdk id, each when present. -/
def VisualStudio.components (vs : VisualStudio) : List RStr :=
  (vs.msvc.toList.map Msvc.id) ++ (vs.sdk.toList.map Sdk.id)

/-- The product reference returned by `instance.GetProduct()`. -/
structure RawProduct where
  id : Option RStr

/-- The property store returned by `instance.GetProperties()`; only
`GetValue(wide_str!("setupEngineFilePath"))` is consulted, its result decoded
to a `Variant` by the binding layer (`none` models a failed call). -/
structure RawProperties where
  setupEngineFilePath : Option Variant

/-- One raw enumerated instance, as the sequence of foreign-call results the
closure in `instances` consumes; `none` models a failed call and
`some none` a succeeded call with no object. -/
structure RawInstance where
  product : Option (Option RawProduct)
  install_path : Option RStr
  display_name : Option RStr
  version : Option RStr
  properties : Option (Option RawProperties)
  packages : Option (List (Option RStr))

/-- The major part of an installation version string:
`version.split_once('.').and_then(|v| v.0.parse::<u16>().ok()).unwrap_or_default()`. -/
def majorOf (version : RStr) : Nat :=
  match splitOnce 46 version with
  | some p => (parseRustUInt U16_SIZE p.1).getD 0
  | none => 0

/-- The fallback
`%ProgramFiles(x86)%\Microsoft Visual Studio\installer\setup.exe` path used
when the `setupEngineFilePath` property is not a string value. -/
def fallbackSetupPath (programFilesX86 : Option RStr) : RStr :=
  programFilesX86.getD (rstr "C:\\Program Files (x86)")
    ++ rstr "\\Microsoft Visual Studio\\installer\\setup.exe"

/-- The closure the `instances` function maps over enumerated raw instances:
any single field-extraction failure yields `none` (that instance is filtered
out), and an instance whose installation-version major part is below 16 is
rejected before classification. -/
def mkInstance (arch : RStr) (programFilesX86 : Option RStr) (inst : RawInstance) :
    Option VisualStudio := do
  let product ← inst.product
  let product ← product
  let product_id ← product.id
  let product_id ← Product.from_str product_id
  let install_path ← inst.install_path
  let display_name ← inst.display_name
  let version ← inst.version
  let major := majorOf version
  if major < 16 then none
  else do
    let props ← inst.properties
    let props ← props
    let setup_path_value ← props.setupEngineFilePath
    let setup_path : RStr :=
      match setup_path_value with
      | .Bstr s => s
      | _ => fallbackSetupPath programFilesX86
    let st :=
      match inst.packages with
      | some pkgs => classifyPackages arch pkgs
      | none => (none, none)
    some
      { display_name := display_name
        version := major
        product_id := product_id
        install_path := install_path
        setup_path := setup_path
        msvc := st.1
        sdk := st.2 }

/-- The candidate list built by `instances()`: map the closure over the raw
enumeration and keep the successes. -/
def instancesList (arch : RStr) (programFilesX86 : Option RStr)
    (raws : List RawInstance) : List VisualStudio :=
  raws.filterMap (mkInstance arch programFilesX86)

/-- The three-key comparator passed to `sort_unstable_by` in `run_main`:
toolset presence (`bool: Ord`, `false < true`), then major version descending,
then product kind ascending. -/
def cmpVS (a b : VisualStudio) : Ordering :=
  if a.msvc.isNone ≠ b.msvc.isNone then natCmp a.msvc.isNone.toNat b.msvc.isNone.toNat
  else if a.version ≠ b.version then natCmp b.version a.version
  else Product.cmp a.product_id b.product_id

/-- `instances.sort_unstable_by(..)`: a comparison sort under `cmpVS`
(the source's unstable sort is modeled by an arbitrary correct comparison
sort; the properties proved do not depend on stability). -/
def sortInstances (l : List VisualStudio) : List VisualStudio :=
  List.insertionSort (fun a b => cmpVS a b ≠ Ordering.gt) l

/-- `sort_unstable_by` followed by `truncate(1)`: only the best-ranked
candidate survives. -/
def selectCandidates (l : List VisualStudio) : List VisualStudio :=
  (sortInstances l).take 1

/-- The workload id passed to the export invocation: Build Tools uses
`..Workload.VCTools`, every other product kind `..Workload.NativeDesktop`. -/
def workloadFor (p : Product) : RStr :=
  if p = Product.BuildTools then rstr "Microsoft.VisualStudio.Workload.VCTools"
  else rstr "Microsoft.VisualStudio.Workload.NativeDesktop"

/-- The argument list `components_json` hands the maintenance tool
(`instance.setup_path`), in order. -/
def componentsJsonArgs (inst : VisualStudio) (configPath : RStr) : List RStr :=
  [rstr "export", rstr "--quiet", rstr "--noUpdateInstaller", rstr "--noWeb"]
    ++ [rstr "--config", configPath]
    ++ [rstr "--installPath", inst.install_path]
    ++ [rstr "--productId", inst.product_id.as_str]
    ++ [rstr "--add", workloadFor inst.product_id]
    ++ [rstr "--includeRecommended", rstr "--includeOptional"]

/-! ## Theorems -/

/-- `Sdk.from_id` recognises exactly the identifiers the spec's 5-segment rule
describes. -/
theorem sdk_from_id_iff_specSdkMatch (id : RStr) :
    (Sdk.from_id id).isSome = true ↔ specSdkMatch id := by
  unfold Sdk.from_id specSdkMatch
  rcases h : splitSep 46 id with _ | ⟨a, _ | ⟨b, _ | ⟨c, _ | ⟨d, _ | ⟨e, _ | ⟨f, rest⟩⟩⟩⟩⟩⟩ <;>
    try simp
  rcases hp : parseRustUInt U32_SIZE e with _ | v <;>
    split_ifs with hc <;> simp [hp] <;> tauto

/-- Claim C2: `Sdk::from_id` classifies a component identifier as a
platform-SDK component exactly when it splits on `.` into 5 segments
`Microsoft`, `VisualStudio`, `Component`, `Windows10SDK`/`Windows11SDK` and a
`u32` version; everything else yields `None` (not an error); the two spec
examples yield versions 19041 and 22000, and 4-segment, 6-segment and
non-numeric-final identifiers yield `None`. -/
theorem C2_sdk_classification :
    (∀ id : RStr, ((Sdk.from_id id).isSome = true ↔ specSdkMatch id)) ∧
    (∀ (id : RStr) (s : Sdk), Sdk.from_id id = some s →
        s.id = id ∧ parseRustUInt U32_SIZE ((splitSep 46 id).getD 4 []) = some s.version) ∧
    Sdk.from_id (rstr "Microsoft.VisualStudio.Component.Windows10SDK.19041")
      = some ⟨19041, rstr "Microsoft.VisualStudio.Component.Windows10SDK.19041"⟩ ∧
    Sdk.from_id (rstr "Microsoft.VisualStudio.Component.Windows11SDK.22000")
      = some ⟨22000, rstr "Microsoft.VisualStudio.Component.Windows11SDK.22000"⟩ ∧
    Sdk.from_id (rstr "Microsoft.VisualStudio.Component.Windows10SDK") = none ∧
    Sdk.from_id (rstr "Microsoft.VisualStudio.Component.Windows10SDK.19041.1") = none ∧
    Sdk.from_id (rstr "Microsoft.VisualStudio.Component.Windows10SDK.abc") = none := by
  refine ⟨sdk_from_id_iff_specSdkMatch, ?_, by decide, by decide, by decide, by decide, by decide⟩
  intro id s h
  unfold Sdk.from_id at h
  rcases hs : splitSep 46 id with _ | ⟨a, _ | ⟨b, _ | ⟨c, _ | ⟨d, _ | ⟨e, _ | ⟨f, rest⟩⟩⟩⟩⟩⟩ <;>
    rw [hs] at h <;> simp at h
  obtain ⟨hc, hmatch⟩ := h
  rcases hp : parseRustUInt U32_SIZE e with _ | v <;> simp [hp] at hmatch
  subst hmatch
  exact ⟨rfl, by simpa using hp⟩

/-- Claim C2 witness: the first spec example satisfies the spec-side rule, via
the equivalence applied at that concrete identifier. -/
theorem C2_witness :
    specSdkMatch (rstr "Microsoft.VisualStudio.Component.Windows10SDK.19041") :=
  (C2_sdk_classification.1 _).mp (by decide)

/-- Claim C9: product identifier parsing and printing round-trip: the four
fixed strings map bijectively onto the four `Product` values and every other
string parses to `None`. -/
theorem C9_product_roundtrip :
    (∀ p : Product, Product.from_str (Product.as_str p) = some p) ∧
    (∀ (s : RStr) (p : Product), Product.from_str s = some p → Product.as_str p = s) := by
  constructor
  · intro p; cases p <;> rfl
  · intro s p h
    unfold Product.from_str at h
    split_ifs at h with h1 h2 h3 h4
    · injection h with hp; subst hp; rw [h1]; rfl
    · injection h with hp; subst hp; rw [h2]; rfl
    · injection h with hp; subst hp; rw [h3]; rfl
    · injection h with hp; subst hp; rw [h4]; rfl

/-- Claim C9 witness: the round-trip applied at a concrete identifier. -/
theorem C9_witness :
    Product.as_str Product.Community = rstr "Microsoft.VisualStudio.Product.Community" :=
  C9_product_roundtrip.2 (rstr "Microsoft.VisualStudio.Product.Community")
    Product.Community (by rfl)

/-- Claim C5: the bulk pull returns `Ok(None)` exactly on the `S_FALSE`
sentinel and `Err(status)` on every failing status, while the external
iterator yields `None` on every status other than `S_OK` (sentinel and
genuine errors alike), raising nothing. -/
theorem C5_next_sentinel :
    (∀ (bufLen : Nat) (hr : Int) (fetched : Nat),
        (EnumSetupInstances.Next bufLen hr fetched = .ok none ↔ hr = S_FALSE)) ∧
    (∀ (bufLen : Nat) (hr : Int) (fetched : Nat), hresultIsErr hr = true →
        EnumSetupInstances.Next bufLen hr fetched = .error hr) ∧
    (∀ (α : Type) (hr : Int) (inst : Option α), hr ≠ S_OK →
        EnumSetupInstances.next hr inst = none) := by
  refine ⟨?_, ?_, ?_⟩
  · intro bufLen hr fetched
    unfold EnumSetupInstances.Next
    split_ifs <;> simp_all
  · intro bufLen hr fetched herr
    unfold EnumSetupInstances.Next
    have : hr ≠ S_FALSE := by
      simp [hresultIsErr, S_FALSE] at herr ⊢; omega
    split_ifs <;> simp_all
  · intro α hr inst hne
    unfold EnumSetupInstances.next
    simp [hne]

/-- Claim C5 witness: concrete calls; an error status propagates from the bulk
pull and ends the external iterator. -/
theorem C5_witness :
    EnumSetupInstances.Next 4 E_POINTER 0 = .error E_POINTER ∧
    EnumSetupInstances.next (α := Unit) S_FALSE (some ()) = none :=
  ⟨C5_next_sentinel.2.1 4 E_POINTER 0 (by decide),
   C5_next_sentinel.2.2 Unit S_FALSE (some ()) (by decide)⟩

/-- Claim C10: the bulk pull never hands back more items than the buffer
holds: a successful status with an over-long fetched count becomes
`Err(E_UNEXPECTED)`, and every `Ok(Some(slice))` has `slice.len()` at most the
buffer length. -/
theorem C10_next_bounds :
    (∀ (bufLen : Nat) (hr : Int) (fetched : Nat),
        hresultIsErr hr = false → hr ≠ S_FALSE → min bufLen (2 ^ 32 - 1) < fetched →
        EnumSetupInstances.Next bufLen hr fetched = .error E_UNEXPECTED) ∧
    (∀ (bufLen : Nat) (hr : Int) (fetched k : Nat),
        EnumSetupInstances.Next bufLen hr fetched = .ok (some k) → k ≤ bufLen) := by
  constructor
  · intro bufLen hr fetched hok hne hover
    unfold EnumSetupInstances.Next
    split_ifs <;> simp_all <;> omega
  · intro bufLen hr fetched k h
    unfold EnumSetupInstances.Next at h
    split_ifs at h <;> simp_all

/-- Claim C10 witness: a success status reporting 9 items fetched into a
4-slot buffer is rejected as `E_UNEXPECTED`. -/
theorem C10_witness : EnumSetupInstances.Next 4 S_OK 9 = .error E_UNEXPECTED :=
  C10_next_bounds.1 4 S_OK 9 (by rfl) (by decide) (by decide)

/-- Claim C6: `into_variant` decodes the supported tags to text, boolean,
signed and unsigned values; an unsupported tag decodes to `Unknown` in a
production build and panics (the error branch) under debug assertions. -/
theorem C6_into_variant :
    (∀ (d : Bool) (v : VARIANT), v.vt = VT_BSTR →
        into_variant d v = .ok (.Bstr v.data.bstrVal)) ∧
    (∀ (d : Bool) (v : VARIANT), v.vt = VT_BOOL →
        into_variant d v = .ok (.Bool (v.data.llVal % 2 ^ 16 != 0))) ∧
    (∀ (d : Bool) (v : VARIANT), (v.vt = VT_I1 ∨ v.vt = VT_I2 ∨ v.vt = VT_I4 ∨ v.vt = VT_I8) →
        into_variant d v = .ok (.Signed (toI64 v.data.llVal))) ∧
    (∀ (d : Bool) (v : VARIANT), (v.vt = VT_UI1 ∨ v.vt = VT_UI2 ∨ v.vt = VT_UI4 ∨ v.vt = VT_UI8) →
        into_variant d v = .ok (.Unsigned v.data.llVal)) ∧
    (∀ v : VARIANT, v.vt ∉ supportedTags →
        into_variant false v = .ok .Unknown ∧
        into_variant true v = .error "unhandled variant type") := by
  refine ⟨?_, ?_, ?_, ?_, ?_⟩
  · intro d v h
    unfold into_variant
    split_ifs <;>
      simp_all [VT_BSTR, VT_BOOL, VT_I1, VT_I2, VT_I4, VT_I8, VT_UI1, VT_UI2, VT_UI4, VT_UI8]
  · intro d v h
    unfold into_variant
    split_ifs <;>
      simp_all [VT_BSTR, VT_BOOL, VT_I1, VT_I2, VT_I4, VT_I8, VT_UI1, VT_UI2, VT_UI4, VT_UI8]
  · intro d v h
    unfold into_variant
    rcases h with h | h | h | h <;> split_ifs <;>
      simp_all [VT_BSTR, VT_BOOL, VT_I1, VT_I2, VT_I4, VT_I8, VT_UI1, VT_UI2, VT_UI4, VT_UI8]
  · intro d v h
    unfold into_variant
    rcases h with h | h | h | h <;> split_ifs <;>
      simp_all [VT_BSTR, VT_BOOL, VT_I1, VT_I2, VT_I4, VT_I8, VT_UI1, VT_UI2, VT_UI4, VT_UI8]
  · intro v h
    simp [supportedTags, VT_BSTR, VT_BOOL, VT_I1, VT_I2, VT_I4, VT_I8,
      VT_UI1, VT_UI2, VT_UI4, VT_UI8] at h
    unfold into_variant
    constructor <;> split_ifs <;>
      simp_all [VT_BSTR, VT_BOOL, VT_I1, VT_I2, VT_I4, VT_I8, VT_UI1, VT_UI2, VT_UI4, VT_UI8]

/-- Claim C6 witness: tag 9 (`VT_ERROR`, unsupported) decodes to `Unknown` in
production and to the panic branch under debug assertions. -/
theorem C6_witness :
    into_variant false ⟨9, ⟨0, []⟩⟩ = .ok .Unknown ∧
    into_variant true ⟨9, ⟨0, []⟩⟩ = .error "unhandled variant type" :=
  C6_into_variant.2.2.2.2 ⟨9, ⟨0, []⟩⟩ (by decide)

/-- Claim C8: the export invocation always opens with `export --quiet
--noUpdateInstaller --noWeb`, passes `--config`, `--installPath`,
`--productId`, ends with `--includeRecommended --includeOptional`, and passes
`--add ..Workload.VCTools` exactly for Build Tools and
`--add ..Workload.NativeDesktop` for every other product kind. -/
theorem C8_export_invocation :
    ∀ (inst : VisualStudio) (configPath : RStr),
      (componentsJsonArgs inst configPath).take 4
          = [rstr "export", rstr "--quiet", rstr "--noUpdateInstaller", rstr "--noWeb"] ∧
      (∃ s t, s ++ [rstr "--config", configPath] ++ t = componentsJsonArgs inst configPath) ∧
      (∃ s t, s ++ [rstr "--installPath", inst.install_path] ++ t
          = componentsJsonArgs inst configPath) ∧
      (∃ s t, s ++ [rstr "--productId", inst.product_id.as_str] ++ t
          = componentsJsonArgs inst configPath) ∧
      (∃ s t, s ++ [rstr "--add", workloadFor inst.product_id] ++ t
          = componentsJsonArgs inst configPath) ∧
      (componentsJsonArgs inst configPath).drop 12
          = [rstr "--includeRecommended", rstr "--includeOptional"] ∧
      (workloadFor inst.product_id = rstr "Microsoft.VisualStudio.Workload.VCTools"
          ↔ inst.product_id = Product.BuildTools) ∧
      (workloadFor inst.product_id = rstr "Microsoft.VisualStudio.Workload.NativeDesktop"
          ↔ inst.product_id ≠ Product.BuildTools) := by
  intro inst configPath
  obtain ⟨dn, ver, pid, ip, sp, mv, sd⟩ := inst
  refine ⟨rfl,
    ⟨[rstr "export", rstr "--quiet", rstr "--noUpdateInstaller", rstr "--noWeb"], _, rfl⟩,
    ⟨[rstr "export", rstr "--quiet", rstr "--noUpdateInstaller", rstr "--noWeb",
      rstr "--config", configPath], _, rfl⟩,
    ⟨[rstr "export", rstr "--quiet", rstr "--noUpdateInstaller", rstr "--noWeb",
      rstr "--config", configPath, rstr "--installPath", ip], _, rfl⟩,
    ⟨[rstr "export", rstr "--quiet", rstr "--noUpdateInstaller", rstr "--noWeb",
      rstr "--config", configPath, rstr "--installPath", ip,
      rstr "--productId", Product.as_str pid], _, rfl⟩,
    rfl, ?_, ?_⟩ <;>
    cases pid <;> simp [workloadFor] <;> decide

/-- The first zero of a `u16` slice sits at the last index exactly when the
slice ends in a zero element and has no earlier zero. -/
theorem positionZero_eq_last_iff (l : List Nat) :
    WideStr.positionZero l = some (l.length - 1) ↔
      (l.getLast? = some 0 ∧ ¬ 0 ∈ l.dropLast) := by
  induction l with
  | nil => simp [WideStr.positionZero]
  | cons a t ih =>
    cases t with
    | nil => by_cases ha : a = 0 <;> simp [WideStr.positionZero, ha]
    | cons b u =>
      by_cases ha : a = 0
      · subst ha
        simp [WideStr.positionZero, List.dropLast_cons₂]
      · have hpz : WideStr.positionZero (a :: b :: u)
            = (WideStr.positionZero (b :: u)).map (fun x => x + 1) := by
          simp [WideStr.positionZero, ha]
        rw [hpz, List.getLast?_cons_cons, List.dropLast_cons₂]
        rw [show (a :: b :: u).length - 1 = ((b :: u).length - 1) + 1 from by simp]
        constructor
        · intro hmap
          rcases hk : WideStr.positionZero (b :: u) with _ | k <;> rw [hk] at hmap <;>
            simp at hmap
          have hkk : k = (b :: u).length - 1 := by simp at hmap ⊢; omega
          subst hkk
          have hr := ih.mp hk
          exact ⟨hr.1, by simp [Ne.symm ha, hr.2]⟩
        · rintro ⟨h1, h2⟩
          simp only [List.mem_cons] at h2
          push_neg at h2
          have hres := ih.mpr ⟨h1, h2.2⟩
          simp [hres]

/-- Claim C7 counterexample: the slice `[0, 0]` contains a terminating zero
element (its last element is zero) yet `from_slice_with_nul` rejects it with
`E_INVALIDARG`, because its first zero is not at the last index. -/
theorem C7_counterexample :
    WideStr.from_slice_with_nul [0, 0] = .error E_INVALIDARG ∧
      [0, 0].getLast? = some 0 := ⟨rfl, rfl⟩

/-- Claim C7 (amended): `from_slice_with_nul` succeeds exactly when the
slice's first zero element is its last element (it ends in zero and has no
interior zero), failing with `E_INVALIDARG` otherwise; `from_ptr` yields no
view exactly for the null pointer and a view for every non-null pointer. -/
theorem C7_widestr :
    (∀ l : List Nat,
        (∃ v, WideStr.from_slice_with_nul l = .ok v) ↔
          (l.getLast? = some 0 ∧ ¬ 0 ∈ l.dropLast)) ∧
    WideStr.from_ptr none = none ∧
    (∀ buf : List Nat, (WideStr.from_ptr (some buf)).isSome = true) := by
  refine ⟨?_, rfl, fun buf => rfl⟩
  intro l
  rw [← positionZero_eq_last_iff]
  unfold WideStr.from_slice_with_nul
  split_ifs with hc <;> simp [hc]

/-- Claim C7 witness: a well-terminated slice is accepted, via the amended
criterion at a concrete input. -/
theorem C7_witness : ∃ v, WideStr.from_slice_with_nul [104, 105, 0] = .ok v :=
  (C7_widestr.1 [104, 105, 0]).mpr (by decide)

/-- Claim C4: no candidate `VisualStudio` value with major version below 16 is
ever constructed: the closure rejects such raw instances, so every member of
the candidate list has major version at least 16. -/
theorem C4_legacy_excluded :
    (∀ (arch : RStr) (pf : Option RStr) (raw : RawInstance) (vs : VisualStudio),
        mkInstance arch pf raw = some vs → 16 ≤ vs.version) ∧
    (∀ (arch : RStr) (pf : Option RStr) (raws : List RawInstance) (vs : VisualStudio),
        vs ∈ instancesList arch pf raws → 16 ≤ vs.version) := by
  have key : ∀ (arch : RStr) (pf : Option RStr) (raw : RawInstance) (vs : VisualStudio),
      mkInstance arch pf raw = some vs → 16 ≤ vs.version := by
    intro arch pf raw vs h
    simp only [mkInstance, Option.bind_eq_bind, Option.bind_eq_some] at h
    obtain ⟨p1, hp1, p2, hp2, p3, hp3, p4, hp4, p5, hp5, p6, hp6, p7, hp7, h⟩ := h
    split_ifs at h with hlt
    simp only [Option.bind_eq_some] at h
    obtain ⟨q1, hq1, q2, hq2, q3, hq3, h⟩ := h
    injection h with h
    subst h
    have hge : 16 ≤ majorOf p7 := by omega
    exact hge
  refine ⟨key, ?_⟩
  intro arch pf raws vs hm
  unfold instancesList at hm
  obtain ⟨raw, hraw, hmk⟩ := List.mem_filterMap.mp hm
  exact key arch pf raw vs hmk

/-- Claim C4 witness: a concrete healthy raw instance (version `17.1`)
constructs a candidate, whose version the theorem bounds. -/
theorem C4_witness :
    16 ≤ (VisualStudio.mk (rstr "VS") 17 Product.Community (rstr "C:\\VS")
      (rstr "C:\\setup.exe") none none).version :=
  C4_legacy_excluded.1 (rstr "x86_64") none
    ⟨some (some ⟨some (rstr "Microsoft.VisualStudio.Product.Community")⟩),
      some (rstr "C:\\VS"), some (rstr "VS"), some (rstr "17.1"),
      some (some ⟨some (Variant.Bstr (rstr "C:\\setup.exe"))⟩), some []⟩
    (VisualStudio.mk (rstr "VS") 17 Product.Community (rstr "C:\\VS")
      (rstr "C:\\setup.exe") none none)
    (by decide)

/-- `lexLt` is irreflexive. -/
theorem lexLt_irrefl (a : RStr) : lexLt a a = false := by
  induction a with
  | nil => rfl
  | cons x xs ih => simp [lexLt, ih]

/-- `lexLt` is transitive. -/
theorem lexLt_trans {a b c : RStr} (h1 : lexLt a b = true) (h2 : lexLt b c = true) :
    lexLt a c = true := by
  induction a generalizing b c with
  | nil =>
    cases c with
    | nil => cases b <;> simp [lexLt] at h1 h2
    | cons z zs => rfl
  | cons x xs ih =>
    cases b with
    | nil => simp [lexLt] at h1
    | cons y ys =>
      cases c with
      | nil => simp [lexLt] at h2
      | cons z zs =>
        simp only [lexLt] at h1 h2 ⊢
        split_ifs at h1 h2 ⊢ <;> first | rfl | omega | exact ih h1 h2

/-- Two strings neither of which is below the other are equal. -/
theorem lexLt_trichotomy {a b : RStr} (h1 : lexLt a b = false) (h2 : lexLt b a = false) :
    a = b := by
  induction a generalizing b with
  | nil =>
    cases b with
    | nil => rfl
    | cons y ys => simp [lexLt] at h1
  | cons x xs ih =>
    cases b with
    | nil => simp [lexLt] at h2
    | cons y ys =>
      simp only [lexLt] at h1 h2
      split_ifs at h1 h2 <;> try omega
      have hxy : x = y := by omega
      rw [hxy, ih h1 h2]

/-- The derived `Sdk` order is irreflexive. -/
theorem sdkLt_irrefl (a : Sdk) : Sdk.rustLt a a = false := by
  simp [Sdk.rustLt, lexLt_irrefl]

/-- The derived `Sdk` order is transitive. -/
theorem sdkLt_trans {a b c : Sdk} (h1 : Sdk.rustLt a b = true) (h2 : Sdk.rustLt b c = true) :
    Sdk.rustLt a c = true := by
  simp only [Sdk.rustLt, Bool.or_eq_true, Bool.and_eq_true, decide_eq_true_eq,
    beq_iff_eq] at h1 h2 ⊢
  rcases h1 with h1 | ⟨h1v, h1l⟩ <;> rcases h2 with h2 | ⟨h2v, h2l⟩
  · left; omega
  · left; omega
  · left; omega
  · right; exact ⟨by omega, lexLt_trans h1l h2l⟩

/-- Two `Sdk` values neither of which is below the other are equal. -/
theorem sdkLt_trichotomy {a b : Sdk} (h1 : Sdk.rustLt a b = false) (h2 : Sdk.rustLt b a = false) :
    a = b := by
  rcases a with ⟨av, aid⟩
  rcases b with ⟨bv, bid⟩
  have hv : av = bv := by
    by_contra hne
    rcases Nat.lt_or_ge av bv with hlt | hge
    · simp [Sdk.rustLt, hlt] at h1
    · have hgt : bv < av := by omega
      simp [Sdk.rustLt, hgt] at h2
  subst hv
  have hid : aid = bid :=
    lexLt_trichotomy (by simpa [Sdk.rustLt] using h1) (by simpa [Sdk.rustLt] using h2)
  rw [hid]

/-- A candidate not strictly above the kept `Sdk` has version at most its. -/
theorem sdkLt_false_version {s c : Sdk} (h : Sdk.rustLt s c = false) :
    c.version ≤ s.version := by
  simp only [Sdk.rustLt, Bool.or_eq_false_iff, decide_eq_false_iff_not] at h
  omega

/-- What one package-loop iteration does to the `sdk` accumulator: either it
keeps it, or the package classifies to an `Sdk` strictly above it and
replaces it. -/
theorem classifyStep_sdk (arch : RStr) (st : Option Msvc × Option Sdk) (pkg : Option RStr) :
    (classifyStep arch st pkg).2 = st.2 ∨
      ∃ id c, pkg = some id ∧ Sdk.from_id id = some c ∧ sdkGtOpt c st.2 = true ∧
        (classifyStep arch st pkg).2 = some c := by
  rcases pkg with _ | id
  · left; rfl
  · rcases hf : Sdk.from_id id with _ | c
    · left
      simp [classifyStep, hf]
    · by_cases hg : sdkGtOpt c st.2 = true
      · right
        exact ⟨id, c, rfl, hf, hg, by simp [classifyStep, hf, hg]⟩
      · left
        simp [classifyStep, hf, hg]

/-- A failed `component > sdk` test means the accumulator already holds an
`Sdk` not strictly below the candidate. -/
theorem sdkGtOpt_false {c : Sdk} {o : Option Sdk} (h : sdkGtOpt c o = false) :
    ∃ t, o = some t ∧ Sdk.rustLt t c = false := by
  rcases o with _ | t
  · simp [sdkGtOpt] at h
  · exact ⟨t, rfl, h⟩

/-- Once the package loop holds an `sdk`, it keeps holding one, and never
replaces it by anything strictly below it. -/
theorem classify_sdk_mono (arch : RStr) (pkgs : List (Option RStr)) :
    ∀ (st : Option Msvc × Option Sdk) (t : Sdk), st.2 = some t →
      ∃ s, (pkgs.foldl (classifyStep arch) st).2 = some s ∧ Sdk.rustLt s t = false := by
  induction pkgs with
  | nil =>
    intro st t h
    exact ⟨t, by simpa using h, sdkLt_irrefl t⟩
  | cons pkg rest ih =>
    intro st t h
    rw [List.foldl_cons]
    rcases classifyStep_sdk arch st pkg with hkeep | ⟨id, c, hpkg, hf, hg, hnew⟩
    · exact ih _ t (hkeep.trans h)
    · have htc : Sdk.rustLt t c = true := by rw [h] at hg; exact hg
      obtain ⟨s, hs, hsc⟩ := ih _ c hnew
      refine ⟨s, hs, ?_⟩
      cases hx : Sdk.rustLt s t
      · rfl
      · have hsc2 := sdkLt_trans hx htc
        rw [hsc2] at hsc
        exact Bool.noConfusion hsc

/-- The `sdk` the package loop ends with came from the start value or from
some package of the list, and no package of the list classifies strictly
above it. -/
theorem classify_sdk_max (arch : RStr) (pkgs : List (Option RStr)) :
    ∀ (st : Option Msvc × Option Sdk) (s : Sdk),
      (pkgs.foldl (classifyStep arch) st).2 = some s →
      (∀ (id : RStr) (c : Sdk), some id ∈ pkgs → Sdk.from_id id = some c →
          Sdk.rustLt s c = false) ∧
      (st.2 = some s ∨ ∃ id, some id ∈ pkgs ∧ Sdk.from_id id = some s) := by
  induction pkgs with
  | nil =>
    intro st s h
    simp only [List.foldl_nil] at h
    exact ⟨by simp, Or.inl h⟩
  | cons pkg rest ih =>
    intro st s h
    rw [List.foldl_cons] at h
    obtain ⟨hrest, horig⟩ := ih (classifyStep arch st pkg) s h
    constructor
    · intro id c hmem hf
      rcases List.mem_cons.mp hmem with heq | hmem2
      · subst heq
        by_cases hg : sdkGtOpt c st.2 = true
        · have hstep : (classifyStep arch st (some id)).2 = some c := by
            simp [classifyStep, hf, hg]
          obtain ⟨s2, hs2, hlt2⟩ := classify_sdk_mono arch rest _ c hstep
          rw [h] at hs2
          injection hs2 with hs2
          rw [hs2]
          exact hlt2
        · obtain ⟨t, hot, htc⟩ := sdkGtOpt_false (Bool.not_eq_true _ ▸ hg)
          have hstep : (classifyStep arch st (some id)).2 = some t := by
            simp [classifyStep, hf, hot, sdkGtOpt, htc]
          obtain ⟨s2, hs2, hlt2⟩ := classify_sdk_mono arch rest _ t hstep
          rw [h] at hs2
          injection hs2 with hs2
          subst hs2
          cases hx : Sdk.rustLt s c
          · rfl
          · exfalso
            cases hy : Sdk.rustLt c t
            · have hct := sdkLt_trichotomy htc hy
              subst hct
              rw [hx] at hlt2
              exact Bool.noConfusion hlt2
            · have hst := sdkLt_trans hx hy
              rw [hst] at hlt2
              exact Bool.noConfusion hlt2
      · exact hrest id c hmem2 hf
    · rcases horig with hstep | ⟨id, hmem, hf⟩
      · rcases classifyStep_sdk arch st pkg with hkeep | ⟨id, c, hpkg, hf, hg, hnew⟩
        · exact Or.inl (hkeep.symm.trans hstep)
        · rw [hstep] at hnew
          injection hnew with hnew
          exact Or.inr ⟨id, by rw [hpkg]; exact List.mem_cons_self _ _, by rw [hf, hnew]⟩
      · exact Or.inr ⟨id, List.mem_cons_of_mem _ hmem, hf⟩

/-- If any package of the list classifies as an SDK (or the loop already holds
one), the loop ends holding one. -/
theorem classify_sdk_isSome (arch : RStr) (pkgs : List (Option RStr)) :
    ∀ st : Option Msvc × Option Sdk,
      (st.2.isSome = true ∨ ∃ id c, some id ∈ pkgs ∧ Sdk.from_id id = some c) →
      ((pkgs.foldl (classifyStep arch) st).2).isSome = true := by
  induction pkgs with
  | nil =>
    intro st h
    rcases h with h | ⟨id, c, hmem, _⟩
    · simpa using h
    · simp at hmem
  | cons pkg rest ih =>
    intro st h
    rw [List.foldl_cons]
    apply ih
    rcases h with h | ⟨id, c, hmem, hf⟩
    · left
      rcases classifyStep_sdk arch st pkg with hkeep | ⟨_, _, _, _, _, hnew⟩
      · rw [hkeep]; exact h
      · rw [hnew]; rfl
    · rcases List.mem_cons.mp hmem with heq | hmem2
      · subst heq
        left
        by_cases hg : sdkGtOpt c st.2 = true
        · have hstep : (classifyStep arch st (some id)).2 = some c := by
            simp [classifyStep, hf, hg]
          rw [hstep]
          rfl
        · obtain ⟨t, hot, htc⟩ := sdkGtOpt_false (Bool.not_eq_true _ ▸ hg)
          have hstep : (classifyStep arch st (some id)).2 = some t := by
            simp [classifyStep, hf, hot, sdkGtOpt, htc]
          rw [hstep]
          rfl
      · exact Or.inr ⟨id, c, hmem2, hf⟩

/-- Specification of `rustMax` (Rust `Iterator::max` on `Sdk`): the result
comes from the start value or the list, no element of the list is strictly
above it, and it is not strictly below the start value. -/
theorem rustMax_fold_spec (l : List Sdk) :
    ∀ (acc : Option Sdk) (s : Sdk),
      l.foldl maxStep acc = some s →
      (∀ x ∈ l, Sdk.rustLt s x = false) ∧ (acc = some s ∨ s ∈ l) ∧
      (∀ t, acc = some t → Sdk.rustLt s t = false) := by
  induction l with
  | nil =>
    intro acc s h
    simp only [List.foldl_nil] at h
    refine ⟨by simp, Or.inl h, ?_⟩
    intro t ht
    rw [ht] at h
    injection h with h
    rw [h]
    exact sdkLt_irrefl s
  | cons x rest ih =>
    intro acc s h
    rw [List.foldl_cons] at h
    rcases acc with _ | m
    · rw [show maxStep none x = some x from rfl] at h
      obtain ⟨hrest, horig, hmono⟩ := ih (some x) s h
      have hsx : Sdk.rustLt s x = false := hmono x rfl
      refine ⟨?_, ?_, ?_⟩
      · intro y hy
        rcases List.mem_cons.mp hy with hyx | hy2
        · subst hyx; exact hsx
        · exact hrest y hy2
      · rcases horig with hacc | hmem
        · injection hacc with hacc
          exact Or.inr (by rw [← hacc]; exact List.mem_cons_self _ _)
        · exact Or.inr (List.mem_cons_of_mem _ hmem)
      · intro t ht
        exact Option.noConfusion ht
    · by_cases hxm : Sdk.rustLt x m = true
      · rw [show maxStep (some m) x = some m from by simp [maxStep, hxm]] at h
        obtain ⟨hrest, horig, hmono⟩ := ih (some m) s h
        have hsm : Sdk.rustLt s m = false := hmono m rfl
        refine ⟨?_, ?_, ?_⟩
        · intro y hy
          rcases List.mem_cons.mp hy with hyx | hy2
          · subst hyx
            cases hsy : Sdk.rustLt s y
            · rfl
            · exfalso
              have hsm2 := sdkLt_trans hsy hxm
              rw [hsm2] at hsm
              exact Bool.noConfusion hsm
          · exact hrest y hy2
        · rcases horig with hacc | hmem
          · exact Or.inl hacc
          · exact Or.inr (List.mem_cons_of_mem _ hmem)
        · intro t ht
          injection ht with ht
          rw [← ht]
          exact hsm
      · simp only [Bool.not_eq_true] at hxm
        rw [show maxStep (some m) x = some x from by simp [maxStep, hxm]] at h
        obtain ⟨hrest, horig, hmono⟩ := ih (some x) s h
        have hsx : Sdk.rustLt s x = false := hmono x rfl
        refine ⟨?_, ?_, ?_⟩
        · intro y hy
          rcases List.mem_cons.mp hy with hyx | hy2
          · subst hyx; exact hsx
          · exact hrest y hy2
        · rcases horig with hacc | hmem
          · injection hacc with hacc
            exact Or.inr (by rw [← hacc]; exact List.mem_cons_self _ _)
          · exact Or.inr (List.mem_cons_of_mem _ hmem)
        · intro t ht
          injection ht with ht
          rw [← ht]
          cases hst : Sdk.rustLt s m
          · rfl
          · exfalso
            cases hxt : Sdk.rustLt m x
            · have hteq := sdkLt_trichotomy hxm hxt
              subst hteq
              rw [hst] at hsx
              exact Bool.noConfusion hsx
            · have h2 := sdkLt_trans hst hxt
              rw [h2] at hsx
              exact Bool.noConfusion hsx

/-- Claim C3 counterexample: with two equal-version SDK identifiers (Windows11
then Windows10 flavour), both the package loop and the export selection keep
the first-seen identifier (`Windows11SDK`, the lexicographically greater), not
the last one seen — so, as stated, "ties broken so that the last one seen
wins" is false. -/
theorem C3_counterexample :
    Sdk.from_id (rstr "Microsoft.VisualStudio.Component.Windows11SDK.19041")
      = some ⟨19041, rstr "Microsoft.VisualStudio.Component.Windows11SDK.19041"⟩ ∧
    Sdk.from_id (rstr "Microsoft.VisualStudio.Component.Windows10SDK.19041")
      = some ⟨19041, rstr "Microsoft.VisualStudio.Component.Windows10SDK.19041"⟩ ∧
    (classifyPackages (rstr "x86_64")
        [some (rstr "Microsoft.VisualStudio.Component.Windows11SDK.19041"),
         some (rstr "Microsoft.VisualStudio.Component.Windows10SDK.19041")]).2
      = some ⟨19041, rstr "Microsoft.VisualStudio.Component.Windows11SDK.19041"⟩ ∧
    exportSdk
        [rstr "Microsoft.VisualStudio.Component.Windows11SDK.19041",
         rstr "Microsoft.VisualStudio.Component.Windows10SDK.19041"]
      = some ⟨19041, rstr "Microsoft.VisualStudio.Component.Windows11SDK.19041"⟩ ∧
    rstr "Microsoft.VisualStudio.Component.Windows11SDK.19041"
      ≠ rstr "Microsoft.VisualStudio.Component.Windows10SDK.19041" :=
  ⟨by decide, by decide, by decide, by decide, by decide⟩

/-- Claim C3 (amended): both the package loop of `instances` and the export
selection of `avaliable_components` keep a platform-SDK classification that is
maximal in the derived `(version, identifier)` order — in particular its
version is the highest classified version; ties on version are broken by
lexicographic comparison of the whole identifier (the greater identifier
wins), not by position. The kept value always comes from the list, one is
kept whenever any identifier classifies, and the spec's example versions
{18362, 19041, 17763} select 19041. -/
theorem C3_sdk_selection :
    (∀ (arch : RStr) (pkgs : List (Option RStr)) (s : Sdk),
        (classifyPackages arch pkgs).2 = some s →
        (∃ id, some id ∈ pkgs ∧ Sdk.from_id id = some s) ∧
        (∀ (id : RStr) (c : Sdk), some id ∈ pkgs → Sdk.from_id id = some c →
            Sdk.rustLt s c = false ∧ c.version ≤ s.version)) ∧
    (∀ (arch : RStr) (pkgs : List (Option RStr)),
        (∃ id c, some id ∈ pkgs ∧ Sdk.from_id id = some c) →
        ((classifyPackages arch pkgs).2).isSome = true) ∧
    (∀ (comps : List RStr) (s : Sdk),
        exportSdk comps = some s →
        (∃ id, id ∈ comps ∧ Sdk.from_id id = some s) ∧
        (∀ (id : RStr) (c : Sdk), id ∈ comps → Sdk.from_id id = some c →
            Sdk.rustLt s c = false ∧ c.version ≤ s.version)) ∧
    exportSdk
        [rstr "Microsoft.VisualStudio.Component.Windows10SDK.18362",
         rstr "Microsoft.VisualStudio.Component.Windows10SDK.19041",
         rstr "Microsoft.VisualStudio.Component.Windows10SDK.17763"]
      = some ⟨19041, rstr "Microsoft.VisualStudio.Component.Windows10SDK.19041"⟩ := by
  refine ⟨?_, ?_, ?_, by decide⟩
  · intro arch pkgs s h
    obtain ⟨hmax, horig⟩ := classify_sdk_max arch pkgs (none, none) s h
    refine ⟨?_, fun id c hmem hf => ⟨hmax id c hmem hf, sdkLt_false_version (hmax id c hmem hf)⟩⟩
    rcases horig with hnone | hsome
    · exact Option.noConfusion hnone
    · exact hsome
  · intro arch pkgs h
    exact classify_sdk_isSome arch pkgs (none, none) (Or.inr h)
  · intro comps s h
    unfold exportSdk rustMax at h
    obtain ⟨hmax, horig, _⟩ := rustMax_fold_spec (comps.filterMap Sdk.from_id) none s h
    constructor
    · rcases horig with hnone | hmem
      · exact Option.noConfusion hnone
      · obtain ⟨id, hid, hf⟩ := List.mem_filterMap.mp hmem
        exact ⟨id, hid, hf⟩
    · intro id c hmem hf
      have hc : c ∈ comps.filterMap Sdk.from_id := List.mem_filterMap.mpr ⟨id, hmem, hf⟩
      exact ⟨hmax c hc, sdkLt_false_version (hmax c hc)⟩

/-- Claim C3 witness: the highest-version rule applied at a concrete package
list: whenever some package classifies, an SDK is kept. -/
theorem C3_witness :
    ((classifyPackages (rstr "x86_64")
        [some (rstr "Microsoft.VisualStudio.Component.Windows10SDK.19041")]).2).isSome = true :=
  C3_sdk_selection.2.1 (rstr "x86_64")
    [some (rstr "Microsoft.VisualStudio.Component.Windows10SDK.19041")]
    ⟨rstr "Microsoft.VisualStudio.Component.Windows10SDK.19041",
      ⟨19041, rstr "Microsoft.VisualStudio.Component.Windows10SDK.19041"⟩,
      by decide, by decide⟩

/-- The comparator compares the lexicographic key (toolset absence, version
descending, product discriminant): characterization of `cmpVS _ _ = .gt`. -/
theorem cmpVS_eq_gt_iff {a b : VisualStudio} :
    cmpVS a b = .gt ↔
      (b.msvc.isNone.toNat < a.msvc.isNone.toNat ∨
       (a.msvc.isNone.toNat = b.msvc.isNone.toNat ∧ a.version < b.version) ∨
       (a.msvc.isNone.toNat = b.msvc.isNone.toNat ∧ a.version = b.version ∧
         b.product_id.discrim < a.product_id.discrim)) := by
  unfold cmpVS Product.cmp natCmp
  cases ha : a.msvc.isNone <;> cases hb : b.msvc.isNone <;>
    simp [ha, hb] <;> split_ifs <;> simp_all <;> omega

/-- The relation the sort uses (`cmpVS a b ≠ .gt`) is transitive. -/
theorem leVS_trans {a b c : VisualStudio} (h1 : cmpVS a b ≠ .gt) (h2 : cmpVS b c ≠ .gt) :
    cmpVS a c ≠ .gt := by
  rw [Ne, cmpVS_eq_gt_iff] at h1 h2 ⊢
  omega

/-- The relation the sort uses is total. -/
theorem leVS_total (a b : VisualStudio) : cmpVS a b ≠ .gt ∨ cmpVS b a ≠ .gt := by
  rw [Ne, cmpVS_eq_gt_iff, Ne, cmpVS_eq_gt_iff]
  omega

/-- The comparator is reflexive (answers `eq` on identical arguments). -/
theorem cmpVS_self (a : VisualStudio) : cmpVS a a = .eq := by
  unfold cmpVS Product.cmp natCmp
  simp

/-- Claim C1: the selection comparator orders by three keys, most significant
first — toolset presence (present sorts before absent), then major version
(higher first), then product kind ascending in the order BuildTools <
Enterprise < Professional < Community — and the selection keeps exactly one
instance, one that compares no worse than every candidate. -/
theorem C1_selection :
    (∀ a b : VisualStudio, a.msvc.isSome = true → b.msvc = none → cmpVS a b = .lt) ∧
    (∀ a b : VisualStudio, a.msvc.isNone = b.msvc.isNone → b.version < a.version →
        cmpVS a b = .lt) ∧
    (∀ a b : VisualStudio, a.msvc.isNone = b.msvc.isNone → a.version = b.version →
        cmpVS a b = Product.cmp a.product_id b.product_id) ∧
    (Product.cmp .BuildTools .Enterprise = .lt ∧ Product.cmp .Enterprise .Professional = .lt ∧
      Product.cmp .Professional .Community = .lt) ∧
    (∀ l : List VisualStudio, l ≠ [] → (selectCandidates l).length = 1) ∧
    (∀ (l : List VisualStudio) (m : VisualStudio), m ∈ selectCandidates l →
        m ∈ l ∧ ∀ x ∈ l, cmpVS m x ≠ .gt) := by
  refine ⟨?_, ?_, ?_, ⟨by decide, by decide, by decide⟩, ?_, ?_⟩
  · intro a b ha hb
    rcases hma : a.msvc with _ | av
    · rw [hma] at ha; exact Bool.noConfusion ha
    · unfold cmpVS natCmp
      simp [hma, hb]
  · intro a b heq hlt
    unfold cmpVS natCmp
    simp [heq]
    split_ifs with hv
    · exfalso; omega
    · exact hlt
  · intro a b heq hv
    unfold cmpVS
    simp [heq, hv]
  · intro l hne
    unfold selectCandidates sortInstances
    rw [List.length_take]
    have hlen : (List.insertionSort (fun a b => cmpVS a b ≠ Ordering.gt) l).length = l.length :=
      (List.perm_insertionSort _ l).length_eq
    rw [hlen]
    cases l with
    | nil => exact absurd rfl hne
    | cons x xs => simp
  · intro l m hm
    haveI htot : IsTotal VisualStudio (fun a b => cmpVS a b ≠ Ordering.gt) := ⟨leVS_total⟩
    haveI htr : IsTrans VisualStudio (fun a b => cmpVS a b ≠ Ordering.gt) :=
      ⟨fun _ _ _ => leVS_trans⟩
    have hperm := List.perm_insertionSort (fun a b => cmpVS a b ≠ Ordering.gt) l
    have hsorted := List.sorted_insertionSort (fun a b => cmpVS a b ≠ Ordering.gt) l
    unfold selectCandidates sortInstances at hm
    rcases hs : List.insertionSort (fun a b => cmpVS a b ≠ Ordering.gt) l with _ | ⟨hd, tl⟩
    · rw [hs] at hm
      simp at hm
    · rw [hs] at hm
      simp only [List.take, List.mem_singleton] at hm
      have hm2 : m = hd := by simpa using hm
      subst hm2
      rw [hs] at hperm hsorted
      have hhd := List.sorted_cons.mp hsorted
      constructor
      · exact hperm.mem_iff.mp (List.mem_cons_self _ _)
      · intro x hx
        have hxs : x ∈ m :: tl := hperm.mem_iff.mpr hx
        rcases List.mem_cons.mp hxs with hxm | hxtl
        · subst hxm
          simp [cmpVS_self]
        · exact hhd.1 x hxtl

/-- Claim C1 witness: the spec's ordering examples — toolset presence
dominates version (instance B with toolset and version 16 sorts before A
without toolset and version 17), and the selection keeps exactly one
instance. -/
theorem C1_witness :
    cmpVS
        (VisualStudio.mk (rstr "B") 16 Product.Community (rstr "b") (rstr "b")
          (some Msvc.X86X64) none)
        (VisualStudio.mk (rstr "A") 17 Product.Community (rstr "a") (rstr "a") none none)
      = .lt ∧
    (selectCandidates
        [VisualStudio.mk (rstr "A") 17 Product.Community (rstr "a") (rstr "a") none none,
         VisualStudio.mk (rstr "B") 16 Product.Community (rstr "b") (rstr "b")
           (some Msvc.X86X64) none]).length = 1 :=
  ⟨C1_selection.1
      (VisualStudio.mk (rstr "B") 16 Product.Community (rstr "b") (rstr "b")
        (some Msvc.X86X64) none)
      (VisualStudio.mk (rstr "A") 17 Product.Community (rstr "a") (rstr "a") none none)
      (by decide) (by decide),
   C1_selection.2.2.2.2.1
      [VisualStudio.mk (rstr "A") 17 Product.Community (rstr "a") (rstr "a") none none,
       VisualStudio.mk (rstr "B") 16 Product.Community (rstr "b") (rstr "b")
         (some Msvc.X86X64) none]
      (by decide)⟩

end VsSetup
